import Mathlib

/-!
# Asana app client (`components/asana/asana.app.mjs`)

A shallow embedding of the methods of the Asana app object: the request layer
(`_headers`, `_makeRequest`), the resource fetches built on it, the option mapping
`generateObjectOptions`, webhook creation and the webhook signature check.

JavaScript values are embedded as `JsVal`. Asynchronous methods become functions
in the effect type `Eff`: a run threads a `World` (the calls handed to the HTTP
transport so far and the console output) and ends in a value or a thrown error.
The transport (`axios` of `@pipedream/platform`) is external: it is a parameter
that answers a call given the calls made before it.
-/

namespace Asana

/-! ## JavaScript values -/

/-- A JavaScript value as the app sees it: the JSON values plus `undefined`.
A number is carried by its canonical rendering (what `String(n)` gives). -/
inductive JsVal where
  | undefined
  | null
  | bool (b : Bool)
  | num (repr : String)
  | str (s : String)
  | arr (items : List JsVal)
  | obj (fields : List (String × JsVal))

/-- The own properties of an object, in insertion order. -/
abbrev JsObj := List (String × JsVal)

/-- What a run can throw: a `TypeError` raised by the language itself, or a value
thrown by an external collaborator (the transport's error). -/
inductive JsError where
  | typeError (msg : String)
  | thrown (err : JsVal)

/-- Reading `o[k]` on an object: the value of the property, `undefined` when absent. -/
def JsObj.get : JsObj → String → JsVal
  | [], _ => JsVal.undefined
  | (k', v) :: rest, k => if k' = k then v else JsObj.get rest k

/-- Writing `o[k] = v`: replaces the value in place, or appends a new property. -/
def JsObj.set : JsObj → String → JsVal → JsObj
  | [], k, v => [(k, v)]
  | (k', v') :: rest, k, v => if k' = k then (k', v) :: rest else (k', v') :: JsObj.set rest k v

/-- Whether the object has an own property `k`. -/
def JsObj.has : JsObj → String → Bool
  | [], _ => false
  | (k', _) :: rest, k => if k' = k then true else JsObj.has rest k

/-- Object spread `{ ...base, ...opts }`: the properties of `opts` are written over
`base` one by one, in order. -/
def JsObj.spread (base opts : JsObj) : JsObj :=
  opts.foldl (fun acc kv => JsObj.set acc kv.1 kv.2) base

/-- Property read `v.k` for the property names the app reads (none of them is a
built-in member of strings, arrays, numbers or booleans): `undefined` and `null`
throw a `TypeError`, an object gives the property or `undefined`, every other
value gives `undefined`. -/
def JsVal.getProp : JsVal → String → Except JsError JsVal
  | JsVal.undefined, k =>
      Except.error (JsError.typeError ("Cannot read properties of undefined (reading " ++ k ++ ")"))
  | JsVal.null, k =>
      Except.error (JsError.typeError ("Cannot read properties of null (reading " ++ k ++ ")"))
  | JsVal.obj fields, k => Except.ok (JsObj.get fields k)
  | _, _ => Except.ok JsVal.undefined

/-- Truthiness of a value, as tested by `if (v)`. -/
def JsVal.truthy : JsVal → Bool
  | JsVal.undefined => false
  | JsVal.null => false
  | JsVal.bool b => b
  | JsVal.num r => !(r = "0" || r = "NaN")
  | JsVal.str s => !(s = "")
  | JsVal.arr _ => true
  | JsVal.obj _ => true

/-- The test `Array.isArray(v)`. -/
def JsVal.isArray : JsVal → Bool
  | JsVal.arr _ => true
  | _ => false

/-- The operator `v ?? d`: `d` when `v` is `undefined` or `null`, else `v`. -/
def JsVal.nullish (v d : JsVal) : JsVal :=
  match v with
  | JsVal.undefined => d
  | JsVal.null => d
  | _ => v

mutual
/-- String conversion of a value inside a template literal. -/
def JsVal.toStr : JsVal → String
  | JsVal.undefined => "undefined"
  | JsVal.null => "null"
  | JsVal.bool b => if b then "true" else "false"
  | JsVal.num r => r
  | JsVal.str s => s
  | JsVal.arr items => JsVal.joinItems items
  | JsVal.obj _ => "[object Object]"
/-- The call `Array.prototype.join(",")`: `undefined` and `null` items render as the empty string. -/
def JsVal.joinItems : List JsVal → String
  | [] => ""
  | [x] => JsVal.itemStr x
  | x :: y :: rest => JsVal.itemStr x ++ "," ++ JsVal.joinItems (y :: rest)
/-- Rendering of one array item inside `join`. -/
def JsVal.itemStr : JsVal → String
  | JsVal.undefined => ""
  | JsVal.null => ""
  | JsVal.bool b => if b then "true" else "false"
  | JsVal.num r => r
  | JsVal.str s => s
  | JsVal.arr items => JsVal.joinItems items
  | JsVal.obj _ => "[object Object]"
end

/-- The values a `for (const x of v)` loop visits: the items of an array, the
characters of a string; any other value is not iterable. -/
def JsVal.iterate : JsVal → Except JsError (List JsVal)
  | JsVal.arr items => Except.ok items
  | JsVal.str s => Except.ok (s.toList.map (fun c => JsVal.str (String.singleton c)))
  | _ => Except.error (JsError.typeError "value is not iterable")

/-- The call `teams.concat(v)`: an array argument is spread, any other value is appended
as one item. -/
def JsVal.concatOnto (teams : List JsVal) : JsVal → List JsVal
  | JsVal.arr items => teams ++ items
  | v => teams ++ [v]

/-- Strict equality `s === v` of a string with a value: true exactly when `v` is
the same string. -/
def JsVal.strictEqStr (s : String) : JsVal → Bool
  | JsVal.str t => decide (s = t)
  | _ => false

/-! ## Effects: transport calls and console output -/

/-- The first argument of a two-argument transport call, `$ ?? this`. -/
inductive Step where
  | app
  | given (v : JsVal)

/-- A call of the transport: `axios(step, config)` or the one-argument `axios(config)`. -/
inductive Call where
  | withStep (step : Step) (config : JsObj)
  | bare (config : JsObj)

/-- The observable state of a run: the calls handed to the transport so far
(oldest first) and what was written with `console.log`. -/
structure World where
  calls : List Call
  console : List JsError

/-- A run of an asynchronous method: from a world to a value or a thrown error,
and the world after it. -/
def Eff (α : Type) : Type := World → Except JsError α × World

/-- Returning a value. -/
def Eff.pure {α : Type} (a : α) : Eff α := fun w => (Except.ok a, w)

/-- Sequencing: a thrown error ends the run. -/
def Eff.bind {α β : Type} (m : Eff α) (f : α → Eff β) : Eff β := fun w =>
  match m w with
  | (Except.ok a, w') => f a w'
  | (Except.error e, w') => (Except.error e, w')

instance : Monad Eff where
  pure := Eff.pure
  bind := Eff.bind

/-- A pure step that may throw. -/
def Eff.lift {α : Type} (x : Except JsError α) : Eff α := fun w => (x, w)

/-- The statement `try { m } catch (err) { handler(err) }`. -/
def Eff.tryCatch {α : Type} (m : Eff α) (handler : JsError → Eff α) : Eff α := fun w =>
  match m w with
  | (Except.ok a, w') => (Except.ok a, w')
  | (Except.error e, w') => handler e w'

/-- The statement `console.log(err)`. -/
def consoleLog (err : JsError) : Eff Unit := fun w =>
  (Except.ok (), World.mk w.calls (w.console ++ [err]))

/-- The credentials the host hands to the app (`this.$auth`). -/
structure Auth where
  oauth_access_token : String
  oauth_refresh_token : String

/-- The app object `this` with its external collaborators: the credentials, the
transport, which answers a call given the calls made before it, and the outcome
of `this._getBaseUrl()`, a method the webhook code calls but the app object does
not define. -/
structure App where
  auth : Auth
  transport : List Call → Call → Except JsError JsVal
  getBaseUrl : Except JsError JsVal

/-- Handing a call to the transport and awaiting its answer. -/
def axios (app : App) (c : Call) : Eff JsVal := fun w =>
  (app.transport w.calls c, World.mk (w.calls ++ [c]) w.console)

/-- The step `$ ?? this`. -/
def stepOf (step : JsVal) : Step :=
  match step with
  | JsVal.undefined => Step.app
  | JsVal.null => Step.app
  | v => Step.given v

/-! ## The methods of the app -/

/-- Method `_accessToken`. -/
def _accessToken (app : App) : String := app.auth.oauth_access_token

/-- Method `_apiUrl`. -/
def _apiUrl : String := "https://app.asana.com/api/1.0"

/-- Method `_headers`. -/
def _headers (app : App) : JsObj :=
  [("Content-Type", JsVal.str "application/json"),
   ("Accept", JsVal.str "application/json"),
   ("Authorization", JsVal.str ("Bearer " ++ _accessToken app))]

/-- The request descriptor `{ url, headers, ...options }` built by `_makeRequest`. -/
def requestConfig (app : App) (path : String) (options : JsObj) : JsObj :=
  JsObj.spread
    [("url", JsVal.str (_apiUrl ++ "/" ++ path)), ("headers", JsVal.obj (_headers app))]
    options

/-- Method `_makeRequest(path, options = {}, $ = undefined)`; `options = none` is an
omitted or `undefined` argument, for which the default `{}` applies. -/
def _makeRequest (app : App) (path : String) (options : Option JsObj) (step : JsVal) :
    Eff JsVal :=
  axios app (Call.withStep (stepOf step) (requestConfig app path (options.getD [])))

/-- Method `_getAuthorizationHeader({ data, headers })`. -/
def _getAuthorizationHeader (app : App) (config : JsObj) : Eff JsVal := do
  let data := config.get "data"
  let headers := config.get "headers"
  let base ← Eff.lift app.getBaseUrl
  let body ← Eff.lift (data.getProp "body")
  axios app (Call.bare
    [("method", JsVal.str "POST"),
     ("url", JsVal.str (base.toStr ++ "/webhooks")),
     ("data", body),
     ("headers", headers)])

/-- Method `createHook(body)`. -/
def createHook (app : App) (body : JsVal) : Eff JsVal := do
  let base ← Eff.lift app.getBaseUrl
  let headers : JsObj :=
    [("Content-Type", JsVal.str "applicaton/json"),
     ("Accept", JsVal.str "application/json"),
     ("Authorization", JsVal.str ("Bearer " ++ app.auth.oauth_access_token))]
  let config : JsObj :=
    [("method", JsVal.str "post"),
     ("url", JsVal.str (base.toStr ++ "/webhooks")),
     ("headers", JsVal.obj headers),
     ("data", JsVal.obj [("body", body)])]
  let authorization ← _getAuthorizationHeader app config
  let config := config.set "headers" (JsVal.obj (headers.set "authorization" authorization))
  Eff.tryCatch (do let _ ← axios app (Call.bare config); pure ()) (fun err => consoleLog err)
  Eff.lift (authorization.getProp "data")

/-- The inner function `base64Digest(s)` of `verifyAsanaWebhookRequest`:
`crypto.createHmac("sha1", secret).update(s).digest("base64")`. The keyed digest is
external, `hmacSha1Base64 secret s`; `s = none` is an `undefined` argument, which
`update` rejects with a `TypeError`. -/
def base64Digest (hmacSha1Base64 : String → String → String) (secret : String) :
    Option String → Except JsError String
  | some s => Except.ok (hmacSha1Base64 secret s)
  | none => Except.error (JsError.typeError "The data argument must be of type string")

/-- Method `verifyAsanaWebhookRequest(request)`. `JSON.stringify` is external:
`jsonStringify v` is the serialization of `v`, `none` when it is `undefined`. -/
def verifyAsanaWebhookRequest (app : App) (hmacSha1Base64 : String → String → String)
    (jsonStringify : JsVal → Option String) (request : JsVal) : Except JsError Bool := do
  let secret := app.auth.oauth_refresh_token
  let body ← request.getProp "body"
  let content := jsonStringify body
  let doubleHash ← base64Digest hmacSha1Base64 secret content
  let headers ← request.getProp "headers"
  let headerHash ← headers.getProp "x-hook-secret"
  pure (JsVal.strictEqStr doubleHash headerHash)

/-- The callback `(obj) => ({ label: obj.name, value: obj.gid })`. -/
def optionOf (o : JsVal) : Except JsError JsVal := do
  let label ← o.getProp "name"
  let value ← o.getProp "gid"
  pure (JsVal.obj [("label", label), ("value", value)])

/-- The items of `items.map(f)`, left to right; a throwing callback ends the map. -/
def mapItems (f : JsVal → Except JsError JsVal) : List JsVal → Except JsError (List JsVal)
  | [] => Except.ok []
  | x :: rest => do
      let y ← f x
      let ys ← mapItems f rest
      pure (y :: ys)

/-- The call `v.map(f)`: defined on arrays only. -/
def JsVal.map (v : JsVal) (f : JsVal → Except JsError JsVal) : Except JsError JsVal :=
  match v with
  | JsVal.arr items => do
      let ys ← mapItems f items
      pure (JsVal.arr ys)
  | JsVal.undefined => Except.error (JsError.typeError "Cannot read properties of undefined (reading map)")
  | JsVal.null => Except.error (JsError.typeError "Cannot read properties of null (reading map)")
  | _ => Except.error (JsError.typeError "map is not a function")

/-- Method `generateObjectOptions(objects)`. -/
def generateObjectOptions (objects : JsVal) : Except JsError JsVal :=
  objects.map optionOf

/-- Method `getWorkspace(workspaceId)`. -/
def getWorkspace (app : App) (workspaceId : JsVal) : Eff JsVal := do
  let response ← _makeRequest app ("workspaces/" ++ workspaceId.toStr) none JsVal.undefined
  Eff.lift (response.getProp "data")

/-- Method `getWorkspaces()`. -/
def getWorkspaces (app : App) : Eff JsVal := do
  let response ← _makeRequest app "workspaces" none JsVal.undefined
  Eff.lift (response.getProp "data")

/-- The body of the `for (const workspace of workspaces)` loop of `getOrganizations`,
run over the remaining workspaces with the organizations collected so far. -/
def organizationsLoop (app : App) : List JsVal → List JsVal → Eff (List JsVal)
  | [], organizations => pure organizations
  | workspace :: rest, organizations => do
      let gid ← Eff.lift (workspace.getProp "gid")
      let responseWorkspace ← getWorkspace app gid
      let flag ← Eff.lift (responseWorkspace.getProp "is_organization")
      organizationsLoop app rest
        (if flag.truthy then organizations ++ [responseWorkspace] else organizations)

/-- Method `getOrganizations()`. -/
def getOrganizations (app : App) : Eff JsVal := do
  let workspaces ← getWorkspaces app
  let items ← Eff.lift workspaces.iterate
  let organizations ← organizationsLoop app items []
  pure (JsVal.arr organizations)

/-- Method `getProject(projectId)`. -/
def getProject (app : App) (projectId : JsVal) : Eff JsVal := do
  let response ← _makeRequest app ("projects/" ++ projectId.toStr) none JsVal.undefined
  Eff.lift (response.getProp "data")

/-- Method `getProjects(workspaceId, params = {}, $)`. -/
def getProjects (app : App) (workspaceId : JsVal) (params : Option JsObj) (step : JsVal) :
    Eff JsVal := do
  let response ← _makeRequest app "projects"
    (some [("params", JsVal.obj (JsObj.spread [("workspace", workspaceId)] (params.getD [])))])
    step
  Eff.lift (response.getProp "data")

/-- Method `getTask(taskId, $)`: the value read is `(response, {}, $).data`, a comma
expression whose value is its last operand `$`. -/
def getTask (app : App) (taskId : JsVal) (step : JsVal) : Eff JsVal := do
  let _ ← _makeRequest app ("tasks/" ++ taskId.toStr) none JsVal.undefined
  Eff.lift (step.getProp "data")

/-- Method `getTasks(params, $)`: `params` is passed as the options of `_makeRequest`. -/
def getTasks (app : App) (params : Option JsObj) (step : JsVal) : Eff JsVal := do
  let response ← _makeRequest app "tasks" params step
  Eff.lift (response.getProp "data")

/-- Method `getSections(project, $)`. -/
def getSections (app : App) (project : JsVal) (step : JsVal) : Eff JsVal := do
  let response ← _makeRequest app ("projects/" ++ project.toStr ++ "/sections") (some []) step
  let data ← Eff.lift (response.getProp "data")
  pure (data.nullish (JsVal.arr []))

/-- Method `getTag(tagId)`. -/
def getTag (app : App) (tagId : JsVal) : Eff JsVal := do
  let response ← _makeRequest app ("tags/" ++ tagId.toStr) none JsVal.undefined
  Eff.lift (response.getProp "data")

/-- Method `getTeam(teamId)`. -/
def getTeam (app : App) (teamId : JsVal) : Eff JsVal := do
  let response ← _makeRequest app ("teams/" ++ teamId.toStr) none JsVal.undefined
  Eff.lift (response.getProp "data")

/-- The body of the `for (const workspace of workspaces)` loop of `getTeams`, run over
the remaining ids with the teams collected so far. -/
def teamsLoop (app : App) : List JsVal → List JsVal → Eff (List JsVal)
  | [], teams => pure teams
  | workspace :: rest, teams => do
      let response ←
        _makeRequest app ("organizations/" ++ workspace.toStr ++ "/teams") none JsVal.undefined
      let data ← Eff.lift (response.getProp "data")
      teamsLoop app rest (JsVal.concatOnto teams data)

/-- Method `getTeams(workspaces)`. -/
def getTeams (app : App) (workspaces : JsVal) : Eff JsVal := do
  let workspaces := if workspaces.isArray then workspaces else JsVal.arr [workspaces]
  let items ← Eff.lift workspaces.iterate
  let teams ← teamsLoop app items []
  pure (JsVal.arr teams)

/-- Method `getUser(userId)`. -/
def getUser (app : App) (userId : JsVal) : Eff JsVal := do
  let response ← _makeRequest app ("users/" ++ userId.toStr) none JsVal.undefined
  Eff.lift (response.getProp "data")

/-- The options of the `taskIds` prop: `getTasks({ project: opts.projectId })`, then
the option mapping. -/
def taskIdsOptions (app : App) (projectId : JsVal) : Eff JsVal := do
  let tasks ← getTasks app (some [("project", projectId)]) JsVal.undefined
  Eff.lift (tasks.map optionOf)

/-- The options of the `sections` prop: `getSections(project)`, then the option
mapping. -/
def sectionsOptions (app : App) (project : JsVal) : Eff JsVal := do
  let sections ← getSections app project JsVal.undefined
  Eff.lift (sections.map optionOf)

/-! ## Sample collaborators for the concrete evaluations -/

/-- Sample credentials. -/
def sampleAuth : Auth := Auth.mk "token" "refresh"

/-- A transport that answers every call with the same parsed body. -/
def answerAll (response : JsVal) : List Call → Call → Except JsError JsVal :=
  fun _ _ => Except.ok response

/-- A transport that fails every call with the same error value. -/
def failAll (err : JsVal) : List Call → Call → Except JsError JsVal :=
  fun _ _ => Except.error (JsError.thrown err)

/-- An app over the sample credentials whose every call is answered with `response`. -/
def sampleApp (response : JsVal) : App :=
  App.mk sampleAuth (answerAll response) (Except.ok (JsVal.str "https://app.asana.com/api/1.0"))

/-- The world before any call. -/
def World.start : World := World.mk [] []

/-- Whether a value is `undefined`. -/
def JsVal.isUndefined : JsVal → Bool
  | JsVal.undefined => true
  | _ => false

/-- The `value` of an emitted option pair. -/
def optionValue : JsVal → JsVal
  | JsVal.obj fields => JsObj.get fields "value"
  | _ => JsVal.undefined

/-- Whether an emitted option pair lacks a label: its `label` is `undefined`. -/
def labelMissing : JsVal → Bool
  | JsVal.obj fields => (JsObj.get fields "label").isUndefined
  | _ => true

/-- A transport that answers the first call of a run with `response` and fails
every later call with `err`. -/
def failAfterFirst (response err : JsVal) : List Call → Call → Except JsError JsVal :=
  fun before _ =>
    match before with
    | [] => Except.ok response
    | _ :: _ => Except.error (JsError.thrown err)

/-- A stand-in for the keyed digest in concrete evaluations. -/
def sampleDigest (secret content : String) : String := secret ++ ":" ++ content

/-- A stand-in for `JSON.stringify` in concrete evaluations: `undefined` has no
serialization, every other value is rendered by its string conversion. -/
def sampleStringify : JsVal → Option String
  | JsVal.undefined => none
  | v => some v.toStr

/-! ## The calls and answers the fan-out claims speak about -/

/-- The call `_makeRequest(path)` hands to the transport: default options, no `$`. -/
def plainCall (app : App) (path : String) : Call :=
  Call.withStep Step.app (requestConfig app path [])

/-- The detail fetch `workspaces/{gid}` of a listed workspace. -/
def workspaceCall (app : App) (workspace : JsObj) : Call :=
  plainCall app ("workspaces/" ++ (JsObj.get workspace "gid").toStr)

/-- The team fetch `organizations/{id}/teams` of an id. -/
def teamsCall (app : App) (id : JsVal) : Call :=
  plainCall app ("organizations/" ++ id.toStr ++ "/teams")

/-- Every detail fetch succeeds: after the calls `before`, the transport answers the
detail fetches of `workspaces`, made one after the other in list order, with
responses whose `data` are the objects `details`, in that order. -/
def DetailsAnswered (app : App) : List Call → List JsObj → List JsObj → Prop
  | _, [], [] => True
  | before, workspace :: rest, detail :: details =>
      (∃ response : JsVal,
        app.transport before (workspaceCall app workspace) = Except.ok response ∧
        response.getProp "data" = Except.ok (JsVal.obj detail)) ∧
      DetailsAnswered app (before ++ [workspaceCall app workspace]) rest details
  | _, _, _ => False

/-- Every team fetch carries a list: after the calls `before`, the transport answers
the team fetches of `ids`, made one after the other in list order, with responses
whose `data` are the lists `datas`, in that order. -/
def TeamsAnswered (app : App) : List Call → List JsVal → List (List JsVal) → Prop
  | _, [], [] => True
  | before, id :: rest, data :: datas =>
      (∃ response : JsVal,
        app.transport before (teamsCall app id) = Except.ok response ∧
        response.getProp "data" = Except.ok (JsVal.arr data)) ∧
      TeamsAnswered app (before ++ [teamsCall app id]) rest datas
  | _, _, _ => False

/-- Whether a workspace detail is flagged as an organization, as the `if` tests it. -/
def isOrganization (detail : JsObj) : Bool :=
  (JsObj.get detail "is_organization").truthy

/-- A transport for the organizations scenario: the list call is answered with two
workspaces, the detail fetch of `1` with an organization, any other call with a
workspace that is not an organization. -/
def organizationsTransport : List Call → Call → Except JsError JsVal :=
  fun before _ =>
    match before with
    | [] => Except.ok (JsVal.obj [("data", JsVal.arr
        [JsVal.obj [("gid", JsVal.str "1")], JsVal.obj [("gid", JsVal.str "2")]])])
    | [_] => Except.ok (JsVal.obj [("data", JsVal.obj
        [("gid", JsVal.str "1"), ("is_organization", JsVal.bool true)])])
    | _ => Except.ok (JsVal.obj [("data", JsVal.obj
        [("gid", JsVal.str "2"), ("is_organization", JsVal.bool false)])])

/-- A transport for the teams scenario: the first call is answered with two teams,
every later call with one team. -/
def teamsTransport : List Call → Call → Except JsError JsVal :=
  fun before _ =>
    match before with
    | [] => Except.ok (JsVal.obj [("data", JsVal.arr
        [JsVal.obj [("gid", JsVal.str "t1")], JsVal.obj [("gid", JsVal.str "t2")]])])
    | _ => Except.ok (JsVal.obj [("data", JsVal.arr [JsVal.obj [("gid", JsVal.str "t3")]])])

/-! ## Basic facts -/

theorem Eff.bind_eq {α β : Type} (m : Eff α) (f : α → Eff β) (w : World) :
    (m >>= f) w = match m w with
      | (Except.ok a, w') => f a w'
      | (Except.error e, w') => (Except.error e, w') := rfl

theorem Eff.pure_eq {α : Type} (a : α) (w : World) :
    (Pure.pure a : Eff α) w = (Except.ok a, w) := rfl

theorem JsObj.get_of_has_false (o : JsObj) (k : String) (h : JsObj.has o k = false) :
    JsObj.get o k = JsVal.undefined := by
  induction o with
  | nil => rfl
  | cons kv rest ih =>
    obtain ⟨k', v⟩ := kv
    by_cases hk : k' = k
    · simp [JsObj.has, hk] at h
    · simp only [JsObj.has, hk, if_false] at h
      simp [JsObj.get, hk, ih h]

theorem JsObj.get_set_ne (o : JsObj) (k k' : String) (v : JsVal) (h : k' ≠ k) :
    JsObj.get (JsObj.set o k' v) k = JsObj.get o k := by
  induction o with
  | nil => simp [JsObj.set, JsObj.get, h]
  | cons kv rest ih =>
    obtain ⟨k0, v0⟩ := kv
    by_cases h0 : k0 = k'
    · subst h0
      simp [JsObj.set, JsObj.get, h]
    · by_cases h1 : k0 = k
      · subst h1
        simp [JsObj.set, JsObj.get, h0]
      · simp [JsObj.set, JsObj.get, h0, h1, ih]

theorem JsObj.get_spread_of_has_false (opts base : JsObj) (k : String)
    (h : JsObj.has opts k = false) :
    JsObj.get (JsObj.spread base opts) k = JsObj.get base k := by
  induction opts generalizing base with
  | nil => rfl
  | cons kv rest ih =>
    obtain ⟨k', v⟩ := kv
    by_cases hk : k' = k
    · simp [JsObj.has, hk] at h
    · simp only [JsObj.has, hk, if_false] at h
      have : JsObj.spread base ((k', v) :: rest) = JsObj.spread (JsObj.set base k' v) rest := rfl
      rw [this, ih _ h, JsObj.get_set_ne _ _ _ _ hk]

theorem mapItems_objects (resources : List JsObj) :
    mapItems optionOf (resources.map JsVal.obj) =
      Except.ok (resources.map (fun r =>
        JsVal.obj [("label", JsObj.get r "name"), ("value", JsObj.get r "gid")])) := by
  induction resources with
  | nil => rfl
  | cons r rest ih =>
    simp only [List.map_cons, mapItems, ih]
    rfl

/-! ## The option mapping -/

/-- C2: for every list of resources, `generateObjectOptions` returns a list of the
same length whose element at each index `i` has `value` equal to the `gid` and
`label` equal to the `name` of the input element at index `i`. -/
theorem generateObjectOptions_pairs (resources : List JsObj) :
    ∃ options : List JsVal,
      generateObjectOptions (JsVal.arr (resources.map JsVal.obj)) =
        Except.ok (JsVal.arr options) ∧
      options.length = resources.length ∧
      ∀ i : Nat, options[i]? = (resources[i]?).map (fun r =>
        JsVal.obj [("label", JsObj.get r "name"), ("value", JsObj.get r "gid")]) := by
  refine ⟨resources.map (fun r =>
    JsVal.obj [("label", JsObj.get r "name"), ("value", JsObj.get r "gid")]), ?_, ?_, ?_⟩
  · simp only [generateObjectOptions, JsVal.map, mapItems_objects]
    rfl
  · simp
  · intro i
    simp

/-- C7 fails as stated: a resource without a name is not excluded, it is emitted
as a pair whose label is `undefined`, and a resource with an empty gid is emitted as
a pair whose value is empty; the inline mapping of the `sections` prop does the same
with a section without a name. -/
theorem generateObjectOptions_keeps_nameless :
    generateObjectOptions (JsVal.arr
        [JsVal.obj [("gid", JsVal.str "1")],
         JsVal.obj [("name", JsVal.str "Backlog"), ("gid", JsVal.str "")]]) =
      Except.ok (JsVal.arr
        [JsVal.obj [("label", JsVal.undefined), ("value", JsVal.str "1")],
         JsVal.obj [("label", JsVal.str "Backlog"), ("value", JsVal.str "")]]) ∧
    labelMissing (JsVal.obj [("label", JsVal.undefined), ("value", JsVal.str "1")]) = true ∧
    (sectionsOptions (sampleApp (JsVal.obj [("data", JsVal.arr
        [JsVal.obj [("gid", JsVal.str "9")]])])) (JsVal.str "222") World.start).1 =
      Except.ok (JsVal.arr
        [JsVal.obj [("label", JsVal.undefined), ("value", JsVal.str "9")]]) := by
  refine ⟨?_, ?_, ?_⟩ <;> rfl

/-- C7, amended: the option mapping excludes nothing. For every list of resources
`generateObjectOptions` emits one pair per resource, the pair at index `i` lacks a
label exactly when the resource at index `i` has no name, its value is the gid of
that resource as it is, and the `sections` prop emits the same pairs when the
sections fetched are those resources. -/
theorem generateObjectOptions_excludes_nothing (resources : List JsObj) :
    ∃ options : List JsVal,
      generateObjectOptions (JsVal.arr (resources.map JsVal.obj)) =
        Except.ok (JsVal.arr options) ∧
      options.length = resources.length ∧
      (∀ i : Nat, (options[i]?).map labelMissing =
        (resources[i]?).map (fun r => (JsObj.get r "name").isUndefined)) ∧
      (∀ i : Nat, (options[i]?).map optionValue =
        (resources[i]?).map (fun r => JsObj.get r "gid")) ∧
      ∀ (auth : Auth) (project : JsVal) (w : World),
        (sectionsOptions
          (App.mk auth (answerAll (JsVal.obj [("data", JsVal.arr (resources.map JsVal.obj))]))
            (Except.ok JsVal.undefined)) project w).1 = Except.ok (JsVal.arr options) := by
  refine ⟨resources.map (fun r =>
    JsVal.obj [("label", JsObj.get r "name"), ("value", JsObj.get r "gid")]), ?_, ?_, ?_, ?_, ?_⟩
  · simp only [generateObjectOptions, JsVal.map, mapItems_objects]
    rfl
  · simp
  · intro i
    cases h : resources[i]? with
    | none => simp [h]
    | some r => simp [h, labelMissing, JsObj.get]
  · intro i
    cases h : resources[i]? with
    | none => simp [h]
    | some r => simp [h, optionValue, JsObj.get]
  · intro auth project w
    simp only [sectionsOptions, getSections, Eff.bind_eq, Eff.pure_eq, Eff.lift, _makeRequest,
      axios, answerAll, JsVal.getProp, JsObj.get, if_true, JsVal.nullish, JsVal.map,
      mapItems_objects]
    rfl

/-! ## The request layer -/

/-- C6 fails as stated: an options object with its own `url` and `headers` replaces
both defaults, so the descriptor handed to the transport has neither the API url
nor any of the three default headers. -/
theorem _makeRequest_options_replace_defaults :
    (_makeRequest (sampleApp JsVal.null) "tasks"
        (some [("url", JsVal.str "https://example.com"), ("headers", JsVal.obj [])])
        JsVal.undefined World.start).2.calls =
      [Call.withStep Step.app
        [("url", JsVal.str "https://example.com"), ("headers", JsVal.obj [])]] ∧
    JsVal.str "https://example.com" ≠ JsVal.str (_apiUrl ++ "/" ++ "tasks") ∧
    JsObj.get [] "Authorization" = JsVal.undefined := by
  refine ⟨rfl, ?_, rfl⟩
  simp [_apiUrl]

/-- C6, amended: for every path and every options object that has no `url` and no
`headers` property of its own, the descriptor handed to the transport has url
`"https://app.asana.com/api/1.0" + "/" + path` and as headers exactly
`Content-Type: application/json`, `Accept: application/json` and
`Authorization: Bearer <access token>`. -/
theorem _makeRequest_default_descriptor (app : App) (path : String) (options : JsObj)
    (step : JsVal) (w : World)
    (hurl : JsObj.has options "url" = false)
    (hheaders : JsObj.has options "headers" = false) :
    ∃ config : JsObj,
      (_makeRequest app path (some options) step w).2.calls =
        w.calls ++ [Call.withStep (stepOf step) config] ∧
      JsObj.get config "url" = JsVal.str ("https://app.asana.com/api/1.0" ++ "/" ++ path) ∧
      JsObj.get config "headers" = JsVal.obj
        [("Content-Type", JsVal.str "application/json"),
         ("Accept", JsVal.str "application/json"),
         ("Authorization", JsVal.str ("Bearer " ++ app.auth.oauth_access_token))] := by
  refine ⟨requestConfig app path options, rfl, ?_, ?_⟩
  · rw [requestConfig, JsObj.get_spread_of_has_false _ _ _ hurl]
    rfl
  · rw [requestConfig, JsObj.get_spread_of_has_false _ _ _ hheaders]
    rfl

/-- Witness of `_makeRequest_default_descriptor`: the options `{ params: {} }`. -/
theorem _makeRequest_default_descriptor_witness :
    ∃ config : JsObj,
      (_makeRequest (sampleApp JsVal.null) "projects" (some [("params", JsVal.obj [])])
        JsVal.undefined World.start).2.calls =
        World.start.calls ++ [Call.withStep (stepOf JsVal.undefined) config] ∧
      JsObj.get config "url" = JsVal.str ("https://app.asana.com/api/1.0" ++ "/" ++ "projects") ∧
      JsObj.get config "headers" = JsVal.obj
        [("Content-Type", JsVal.str "application/json"),
         ("Accept", JsVal.str "application/json"),
         ("Authorization", JsVal.str ("Bearer " ++ (sampleApp JsVal.null).auth.oauth_access_token))] :=
  _makeRequest_default_descriptor (sampleApp JsVal.null) "projects" [("params", JsVal.obj [])]
    JsVal.undefined World.start (by decide) (by decide)

/-! ## Sections -/

/-- C5 fails as stated: when the response carries a `data` field whose value is
`null`, `getSections` does not return that field unchanged; it returns the empty
list. -/
theorem getSections_null_data_gives_empty :
    JsVal.getProp (JsVal.obj [("data", JsVal.null)]) "data" = Except.ok JsVal.null ∧
    (getSections (sampleApp (JsVal.obj [("data", JsVal.null)])) (JsVal.str "222")
        JsVal.undefined World.start).1 = Except.ok (JsVal.arr []) ∧
    JsVal.arr [] ≠ JsVal.null := by
  refine ⟨rfl, rfl, ?_⟩
  simp

/-- C5, amended: for every project id, when the transport answers the request to
`projects/{projectId}/sections` with an object, `getSections` returns the empty
list if that object has no `data` field or its `data` is `null` or `undefined`, and
returns the `data` field unchanged otherwise; in neither case does it raise. -/
theorem getSections_data_or_empty (app : App) (project step : JsVal) (w : World)
    (fields : JsObj)
    (hanswer : app.transport w.calls
      (Call.withStep (stepOf step)
        (requestConfig app ("projects/" ++ project.toStr ++ "/sections") [])) =
      Except.ok (JsVal.obj fields)) :
    (JsObj.has fields "data" = false →
      (getSections app project step w).1 = Except.ok (JsVal.arr [])) ∧
    (JsObj.get fields "data" = JsVal.null →
      (getSections app project step w).1 = Except.ok (JsVal.arr [])) ∧
    (JsObj.get fields "data" = JsVal.undefined →
      (getSections app project step w).1 = Except.ok (JsVal.arr [])) ∧
    (JsObj.get fields "data" ≠ JsVal.null → JsObj.get fields "data" ≠ JsVal.undefined →
      (getSections app project step w).1 = Except.ok (JsObj.get fields "data")) := by
  have hrun : (getSections app project step w).1 =
      Except.ok ((JsObj.get fields "data").nullish (JsVal.arr [])) := by
    simp [getSections, Eff.bind_eq, Eff.pure_eq, _makeRequest, axios, hanswer, Eff.lift,
      JsVal.getProp]
  refine ⟨?_, ?_, ?_, ?_⟩
  · intro h
    rw [hrun, JsObj.get_of_has_false _ _ h]
    rfl
  · intro h
    rw [hrun, h]
    rfl
  · intro h
    rw [hrun, h]
    rfl
  · intro h1 h2
    rw [hrun]
    cases hd : JsObj.get fields "data" with
    | undefined => exact absurd hd h2
    | null => exact absurd hd h1
    | _ => rfl

/-- Witness of `getSections_data_or_empty`: a response `{ data: [ section ] }` and a
response without `data`. -/
theorem getSections_data_or_empty_witness :
    (getSections (sampleApp (JsVal.obj [("data", JsVal.arr [JsVal.obj
        [("gid", JsVal.str "9"), ("name", JsVal.str "To do")]])])) (JsVal.str "222")
        JsVal.undefined World.start).1 =
      Except.ok (JsVal.arr [JsVal.obj [("gid", JsVal.str "9"), ("name", JsVal.str "To do")]]) ∧
    (getSections (sampleApp (JsVal.obj [])) (JsVal.str "222") JsVal.undefined
        World.start).1 = Except.ok (JsVal.arr []) :=
  ⟨(getSections_data_or_empty (sampleApp (JsVal.obj [("data", JsVal.arr [JsVal.obj
        [("gid", JsVal.str "9"), ("name", JsVal.str "To do")]])])) (JsVal.str "222")
        JsVal.undefined World.start _ rfl).2.2.2 (by simp [JsObj.get]) (by simp [JsObj.get]),
   (getSections_data_or_empty (sampleApp (JsVal.obj [])) (JsVal.str "222")
        JsVal.undefined World.start _ rfl).1 rfl⟩

/-! ## Webhook signature check -/

theorem JsVal.strictEqStr_iff (s : String) (v : JsVal) :
    JsVal.strictEqStr s v = true ↔ v = JsVal.str s := by
  cases v <;> simp [JsVal.strictEqStr, eq_comm]

/-- C1 fails as stated: not every inbound request gets a verdict. On a request
without a body `JSON.stringify` gives `undefined` and the digest raises a
`TypeError`; on a request without headers the header read raises a `TypeError`. In
neither case does `verifyAsanaWebhookRequest` return false. -/
theorem verifyAsanaWebhookRequest_raises_without_body_or_headers :
    verifyAsanaWebhookRequest (sampleApp JsVal.null) sampleDigest sampleStringify
        (JsVal.obj [("headers", JsVal.obj [("x-hook-secret", JsVal.str "refresh:ping")])]) =
      Except.error (JsError.typeError "The data argument must be of type string") ∧
    verifyAsanaWebhookRequest (sampleApp JsVal.null) sampleDigest sampleStringify
        (JsVal.obj [("body", JsVal.str "ping")]) =
      Except.error
        (JsError.typeError "Cannot read properties of undefined (reading x-hook-secret)") ∧
    verifyAsanaWebhookRequest (sampleApp JsVal.null) sampleDigest sampleStringify
        (JsVal.obj [("headers", JsVal.obj [("x-hook-secret", JsVal.str "refresh:ping")])]) ≠
      Except.ok false ∧
    verifyAsanaWebhookRequest (sampleApp JsVal.null) sampleDigest sampleStringify
        (JsVal.obj [("body", JsVal.str "ping")]) ≠ Except.ok false := by
  have hbody : verifyAsanaWebhookRequest (sampleApp JsVal.null) sampleDigest sampleStringify
      (JsVal.obj [("headers", JsVal.obj [("x-hook-secret", JsVal.str "refresh:ping")])]) =
      Except.error (JsError.typeError "The data argument must be of type string") := rfl
  have hheaders : verifyAsanaWebhookRequest (sampleApp JsVal.null) sampleDigest sampleStringify
      (JsVal.obj [("body", JsVal.str "ping")]) =
      Except.error
        (JsError.typeError "Cannot read properties of undefined (reading x-hook-secret)") := rfl
  refine ⟨hbody, hheaders, ?_, ?_⟩
  · rw [hbody]
    intro h
    cases h
  · rw [hheaders]
    intro h
    cases h

/-- C1, amended: for every inbound request that has a `headers` object and a body
with a JSON serialization, `verifyAsanaWebhookRequest` returns true if and only if
the keyed digest of the serialized body equals `headers["x-hook-secret"]`, and
returns false otherwise, in particular when the header is absent. The key is the
secret of the auth context that the code reads, `oauth_refresh_token`. -/
theorem verifyAsanaWebhookRequest_iff (app : App) (hmacSha1Base64 : String → String → String)
    (jsonStringify : JsVal → Option String) (fields headers : JsObj) (content : String)
    (hheaders : JsObj.get fields "headers" = JsVal.obj headers)
    (hbody : jsonStringify (JsObj.get fields "body") = some content) :
    ∃ verdict : Bool,
      verifyAsanaWebhookRequest app hmacSha1Base64 jsonStringify (JsVal.obj fields) =
        Except.ok verdict ∧
      (verdict = true ↔ JsObj.get headers "x-hook-secret" =
        JsVal.str (hmacSha1Base64 app.auth.oauth_refresh_token content)) ∧
      (JsObj.has headers "x-hook-secret" = false → verdict = false) := by
  refine ⟨JsVal.strictEqStr (hmacSha1Base64 app.auth.oauth_refresh_token content)
    (JsObj.get headers "x-hook-secret"), ?_, ?_, ?_⟩
  · simp [verifyAsanaWebhookRequest, JsVal.getProp, bind, Except.bind, pure, Except.pure,
      hbody, hheaders, base64Digest]
  · exact JsVal.strictEqStr_iff _ _
  · intro h
    rw [JsObj.get_of_has_false _ _ h]
    rfl

/-- Witness of `verifyAsanaWebhookRequest_iff`: a request whose header carries the
digest of its body. -/
theorem verifyAsanaWebhookRequest_iff_witness :
    ∃ verdict : Bool,
      verifyAsanaWebhookRequest (sampleApp JsVal.null) sampleDigest sampleStringify
        (JsVal.obj [("body", JsVal.str "ping"),
          ("headers", JsVal.obj [("x-hook-secret", JsVal.str "refresh:ping")])]) =
        Except.ok verdict ∧
      (verdict = true ↔ JsObj.get [("x-hook-secret", JsVal.str "refresh:ping")] "x-hook-secret" =
        JsVal.str (sampleDigest (sampleApp JsVal.null).auth.oauth_refresh_token "ping")) ∧
      (JsObj.has [("x-hook-secret", JsVal.str "refresh:ping")] "x-hook-secret" = false →
        verdict = false) :=
  verifyAsanaWebhookRequest_iff (sampleApp JsVal.null) sampleDigest sampleStringify
    [("body", JsVal.str "ping"),
      ("headers", JsVal.obj [("x-hook-secret", JsVal.str "refresh:ping")])]
    [("x-hook-secret", JsVal.str "refresh:ping")] "ping" rfl rfl

/-! ## Tasks -/

theorem Eff.bind_lift_world {α β : Type} (m : Eff α) (f : α → Except JsError β) (w : World) :
    ((m >>= fun a => Eff.lift (f a)) w).2 = (m w).2 := by
  rw [Eff.bind_eq]
  rcases hm : m w with ⟨r, w'⟩
  cases r <;> rfl

theorem _makeRequest_world (app : App) (path : String) (options : Option JsObj)
    (step : JsVal) (w : World) :
    (_makeRequest app path options step w).2 =
      World.mk (w.calls ++ [Call.withStep (stepOf step)
        (requestConfig app path (options.getD []))]) w.console := rfl

/-- C9 fails on the code: `getTasks({ project: g })`, also when called by the
`taskIds` option resolver, spreads the filter into the request descriptor itself, so
the descriptor handed to the transport has a top-level `project` property and no
`params` (query) property, whereas `getProjects(g)` puts its filter under `params`. -/
theorem getTasks_filter_outside_params (app : App) (g : JsVal) (w : World) :
    (getTasks app (some [("project", g)]) JsVal.undefined w).2.calls =
      w.calls ++ [Call.withStep Step.app
        [("url", JsVal.str "https://app.asana.com/api/1.0/tasks"),
         ("headers", JsVal.obj (_headers app)),
         ("project", g)]] ∧
    (taskIdsOptions app g w).2.calls =
      w.calls ++ [Call.withStep Step.app
        [("url", JsVal.str "https://app.asana.com/api/1.0/tasks"),
         ("headers", JsVal.obj (_headers app)),
         ("project", g)]] ∧
    JsObj.get
        [("url", JsVal.str "https://app.asana.com/api/1.0/tasks"),
         ("headers", JsVal.obj (_headers app)),
         ("project", g)] "params" = JsVal.undefined ∧
    (getProjects app g none JsVal.undefined w).2.calls =
      w.calls ++ [Call.withStep Step.app
        [("url", JsVal.str "https://app.asana.com/api/1.0/projects"),
         ("headers", JsVal.obj (_headers app)),
         ("params", JsVal.obj [("workspace", g)])]] := by
  refine ⟨?_, ?_, rfl, ?_⟩
  · simp only [getTasks, Eff.bind_lift_world, _makeRequest_world]
    rfl
  · simp only [taskIdsOptions, getTasks, Eff.bind_lift_world, _makeRequest_world]
    rfl
  · simp only [getProjects, Eff.bind_lift_world, _makeRequest_world]
    rfl

/-- C10 fails on the code: with a transport that answers `{ data: task }`,
`getTask("7")` without `$` raises a `TypeError` instead of returning the task, and
`getTask("7", $)` returns `$.data`, whatever the response; the sibling fetches
`getProject`, `getWorkspace`, `getTag`, `getTeam` and `getUser` on the same transport
return the `data` of the response. -/
theorem getTask_reads_step_not_response :
    (getTask (sampleApp (JsVal.obj [("data", JsVal.obj [("gid", JsVal.str "7")])]))
        (JsVal.str "7") JsVal.undefined World.start).1 =
      Except.error (JsError.typeError "Cannot read properties of undefined (reading data)") ∧
    (getTask (sampleApp (JsVal.obj [("data", JsVal.obj [("gid", JsVal.str "7")])]))
        (JsVal.str "7") (JsVal.obj [("data", JsVal.str "mine")]) World.start).1 =
      Except.ok (JsVal.str "mine") ∧
    (getTask (sampleApp (JsVal.obj [("data", JsVal.obj [("gid", JsVal.str "7")])]))
        (JsVal.str "7") JsVal.undefined World.start).2.calls =
      [plainCall (sampleApp (JsVal.obj [("data", JsVal.obj [("gid", JsVal.str "7")])]))
        "tasks/7"] ∧
    (getProject (sampleApp (JsVal.obj [("data", JsVal.obj [("gid", JsVal.str "7")])]))
        (JsVal.str "7") World.start).1 =
      Except.ok (JsVal.obj [("gid", JsVal.str "7")]) ∧
    (getWorkspace (sampleApp (JsVal.obj [("data", JsVal.obj [("gid", JsVal.str "7")])]))
        (JsVal.str "7") World.start).1 =
      Except.ok (JsVal.obj [("gid", JsVal.str "7")]) ∧
    (getTag (sampleApp (JsVal.obj [("data", JsVal.obj [("gid", JsVal.str "7")])]))
        (JsVal.str "7") World.start).1 =
      Except.ok (JsVal.obj [("gid", JsVal.str "7")]) ∧
    (getTeam (sampleApp (JsVal.obj [("data", JsVal.obj [("gid", JsVal.str "7")])]))
        (JsVal.str "7") World.start).1 =
      Except.ok (JsVal.obj [("gid", JsVal.str "7")]) ∧
    (getUser (sampleApp (JsVal.obj [("data", JsVal.obj [("gid", JsVal.str "7")])]))
        (JsVal.str "7") World.start).1 =
      Except.ok (JsVal.obj [("gid", JsVal.str "7")]) := by
  refine ⟨?_, ?_, ?_, ?_, ?_, ?_, ?_, ?_⟩ <;> rfl

/-! ## Webhook creation -/

/-- C8 fails on the code: when the transport fails the webhook-creation POST,
`createHook` raises the transport's error after that one call and logs nothing;
only a failure of the second POST, made after the first succeeded, is caught and
logged, and then the `data` of the first response is returned. When the call
`this._getBaseUrl()` itself raises, as it does on an app object that does not define
the method, `createHook` raises that error before any request, whatever the
transport. -/
theorem createHook_raises_on_failed_creation (auth : Auth) (err body : JsVal)
    (base : String) (transport : List Call → Call → Except JsError JsVal)
    (missing : JsError) (w : World) :
    createHook (App.mk auth (failAll err) (Except.ok (JsVal.str base))) body World.start =
      (Except.error (JsError.thrown err),
       World.mk
        [Call.bare
          [("method", JsVal.str "POST"),
           ("url", JsVal.str (base ++ "/webhooks")),
           ("data", body),
           ("headers", JsVal.obj
             [("Content-Type", JsVal.str "applicaton/json"),
              ("Accept", JsVal.str "application/json"),
              ("Authorization", JsVal.str ("Bearer " ++ auth.oauth_access_token))])]]
        []) ∧
    (createHook (App.mk auth (failAfterFirst (JsVal.obj [("data", JsVal.str "hook")]) err)
        (Except.ok (JsVal.str base))) body World.start).1 =
      Except.ok (JsVal.str "hook") ∧
    (createHook (App.mk auth (failAfterFirst (JsVal.obj [("data", JsVal.str "hook")]) err)
        (Except.ok (JsVal.str base))) body World.start).2.console =
      [JsError.thrown err] ∧
    createHook (App.mk auth transport (Except.error missing)) body w =
      (Except.error missing, w) := by
  refine ⟨?_, ?_, ?_, ?_⟩ <;> rfl

/-! ## Fan-out fetches -/

theorem _makeRequest_plain (app : App) (path : String) (w : World) :
    _makeRequest app path none JsVal.undefined w =
      (app.transport w.calls (plainCall app path),
       World.mk (w.calls ++ [plainCall app path]) w.console) := rfl

theorem organizationsLoop_run (app : App) (workspaces : List JsObj) :
    ∀ (details : List JsObj) (w : World) (organizations : List JsVal),
      DetailsAnswered app w.calls workspaces details →
      organizationsLoop app (workspaces.map JsVal.obj) organizations w =
        (Except.ok (organizations ++ (details.filter isOrganization).map JsVal.obj),
         World.mk (w.calls ++ workspaces.map (workspaceCall app)) w.console) := by
  induction workspaces with
  | nil =>
    intro details w organizations h
    cases details with
    | nil => simp [organizationsLoop, Eff.pure_eq]
    | cons d ds => exact absurd h (by simp [DetailsAnswered])
  | cons workspace rest ih =>
    intro details w organizations h
    cases details with
    | nil => exact absurd h (by simp [DetailsAnswered])
    | cons d ds =>
      obtain ⟨⟨response, hresponse, hdata⟩, hrest⟩ := h
      have hstep := ih ds (World.mk (w.calls ++ [workspaceCall app workspace]) w.console)
        (if isOrganization d then organizations ++ [JsVal.obj d] else organizations) hrest
      have hgid : (JsVal.obj workspace).getProp "gid" = Except.ok (JsObj.get workspace "gid") :=
        rfl
      have hflag : (JsVal.obj d).getProp "is_organization" =
          Except.ok (JsObj.get d "is_organization") := rfl
      have hcall : plainCall app ("workspaces/" ++ (JsObj.get workspace "gid").toStr) =
          workspaceCall app workspace := rfl
      have htruthy : (JsObj.get d "is_organization").truthy = isOrganization d := rfl
      simp only [List.map_cons, organizationsLoop, Eff.bind_eq, Eff.lift, getWorkspace,
        _makeRequest_plain, hgid, hcall, hresponse, hdata, hflag, htruthy, hstep]
      by_cases hd : isOrganization d = true
      · simp [hd, List.filter_cons]
      · simp [hd, List.filter_cons]

/-- C3: for every list of workspaces returned by the list call and every successful
detail response, `getOrganizations` hands the transport the list call and then
exactly one detail fetch `workspaces/{gid}` per listed workspace, in list order, and
returns exactly the detail responses whose `is_organization` flag holds, in that
order; so every returned element has the flag. -/
theorem getOrganizations_filters_details (app : App) (w : World)
    (workspaces details : List JsObj) (listResponse : JsVal)
    (hlist : app.transport w.calls (plainCall app "workspaces") = Except.ok listResponse)
    (hlistData : listResponse.getProp "data" = Except.ok (JsVal.arr (workspaces.map JsVal.obj)))
    (hdetails : DetailsAnswered app (w.calls ++ [plainCall app "workspaces"]) workspaces details) :
    getOrganizations app w =
      (Except.ok (JsVal.arr ((details.filter isOrganization).map JsVal.obj)),
       World.mk (w.calls ++ plainCall app "workspaces" :: workspaces.map (workspaceCall app))
         w.console) ∧
    (details.filter isOrganization).all isOrganization = true := by
  constructor
  · have hloop := organizationsLoop_run app workspaces details
      (World.mk (w.calls ++ [plainCall app "workspaces"]) w.console) [] hdetails
    simp only [getOrganizations, getWorkspaces, Eff.bind_eq, Eff.lift, Eff.pure_eq,
      _makeRequest_plain, hlist, hlistData, JsVal.iterate, hloop]
    simp
  · simp [List.all_eq_true]

/-- Witness of `getOrganizations_filters_details`: two listed workspaces, of which
the first is an organization. -/
theorem getOrganizations_filters_details_witness :
    getOrganizations (App.mk sampleAuth organizationsTransport (Except.ok JsVal.undefined))
        World.start =
      (Except.ok (JsVal.arr
        [JsVal.obj [("gid", JsVal.str "1"), ("is_organization", JsVal.bool true)]]),
       World.mk
        [plainCall (App.mk sampleAuth organizationsTransport (Except.ok JsVal.undefined))
           "workspaces",
         plainCall (App.mk sampleAuth organizationsTransport (Except.ok JsVal.undefined))
           "workspaces/1",
         plainCall (App.mk sampleAuth organizationsTransport (Except.ok JsVal.undefined))
           "workspaces/2"]
        []) :=
  (getOrganizations_filters_details
    (App.mk sampleAuth organizationsTransport (Except.ok JsVal.undefined)) World.start
    [[("gid", JsVal.str "1")], [("gid", JsVal.str "2")]]
    [[("gid", JsVal.str "1"), ("is_organization", JsVal.bool true)],
     [("gid", JsVal.str "2"), ("is_organization", JsVal.bool false)]]
    (JsVal.obj [("data", JsVal.arr
        [JsVal.obj [("gid", JsVal.str "1")], JsVal.obj [("gid", JsVal.str "2")]])])
    rfl rfl ⟨⟨_, rfl, rfl⟩, ⟨_, rfl, rfl⟩, trivial⟩).1

theorem teamsLoop_run (app : App) (ids : List JsVal) :
    ∀ (datas : List (List JsVal)) (w : World) (teams : List JsVal),
      TeamsAnswered app w.calls ids datas →
      teamsLoop app ids teams w =
        (Except.ok (teams ++ datas.flatten),
         World.mk (w.calls ++ ids.map (teamsCall app)) w.console) := by
  induction ids with
  | nil =>
    intro datas w teams h
    cases datas with
    | nil => simp [teamsLoop, Eff.pure_eq]
    | cons d ds => exact absurd h (by simp [TeamsAnswered])
  | cons id rest ih =>
    intro datas w teams h
    cases datas with
    | nil => exact absurd h (by simp [TeamsAnswered])
    | cons d ds =>
      obtain ⟨⟨response, hresponse, hdata⟩, hrest⟩ := h
      have hstep := ih ds (World.mk (w.calls ++ [teamsCall app id]) w.console) (teams ++ d) hrest
      have hcall : plainCall app ("organizations/" ++ id.toStr ++ "/teams") =
          teamsCall app id := rfl
      have hconcat : JsVal.concatOnto teams (JsVal.arr d) = teams ++ d := rfl
      simp only [teamsLoop, Eff.bind_eq, Eff.lift, _makeRequest_plain, hcall, hresponse,
        hdata, hconcat, hstep]
      simp

/-- C4: for every id `w` (a value that is not an array), `getTeams(w)` runs exactly
as `getTeams([w])`: same requests, same result. For every list of ids whose
responses carry a list in `data`, `getTeams(ids)` hands the transport one request
`organizations/{id}/teams` per id, in the order of the ids, and returns the
concatenation of the `data` lists in that order. -/
theorem getTeams_scalar_and_concat (app : App) (world : World) (w : JsVal)
    (ids : List JsVal) (datas : List (List JsVal))
    (hscalar : w.isArray = false)
    (hanswers : TeamsAnswered app world.calls ids datas) :
    getTeams app w world = getTeams app (JsVal.arr [w]) world ∧
    getTeams app (JsVal.arr ids) world =
      (Except.ok (JsVal.arr datas.flatten),
       World.mk (world.calls ++ ids.map (teamsCall app)) world.console) := by
  constructor
  · simp only [getTeams, hscalar]
    rfl
  · have hloop := teamsLoop_run app ids datas world [] hanswers
    simp only [getTeams, JsVal.isArray, if_true, Eff.bind_eq, Eff.lift, Eff.pure_eq,
      JsVal.iterate, hloop]
    simp

/-- Witness of `getTeams_scalar_and_concat`: the scalar id `"1"`, and the ids
`["1", "2"]` answered with two teams and one team. -/
theorem getTeams_scalar_and_concat_witness :
    getTeams (App.mk sampleAuth teamsTransport (Except.ok JsVal.undefined)) (JsVal.str "1")
        World.start =
      getTeams (App.mk sampleAuth teamsTransport (Except.ok JsVal.undefined))
        (JsVal.arr [JsVal.str "1"]) World.start ∧
    getTeams (App.mk sampleAuth teamsTransport (Except.ok JsVal.undefined))
        (JsVal.arr [JsVal.str "1", JsVal.str "2"]) World.start =
      (Except.ok (JsVal.arr
        [JsVal.obj [("gid", JsVal.str "t1")], JsVal.obj [("gid", JsVal.str "t2")],
         JsVal.obj [("gid", JsVal.str "t3")]]),
       World.mk
        [plainCall (App.mk sampleAuth teamsTransport (Except.ok JsVal.undefined))
           "organizations/1/teams",
         plainCall (App.mk sampleAuth teamsTransport (Except.ok JsVal.undefined))
           "organizations/2/teams"]
        []) :=
  getTeams_scalar_and_concat (App.mk sampleAuth teamsTransport (Except.ok JsVal.undefined))
    World.start (JsVal.str "1") [JsVal.str "1", JsVal.str "2"]
    [[JsVal.obj [("gid", JsVal.str "t1")], JsVal.obj [("gid", JsVal.str "t2")]],
     [JsVal.obj [("gid", JsVal.str "t3")]]]
    rfl ⟨⟨_, rfl, rfl⟩, ⟨_, rfl, rfl⟩, trivial⟩

end Asana
